import Mathlib

/-!
Verification of the EWMA streaming anomaly detector
(`src/code-doc.py`, class `AnomalyDetector`).

The detector state and the `detect` operation are embedded over `ℝ`
(the Python floats are idealised as real numbers).  The `None` sentinel
for the uninitialised EWMA becomes `Option ℝ`, and `detect` returns the
per-point `Observation` record together with the updated state, making
the Python in-place mutation explicit.
-/

namespace EwmaDetector

/-- The detector state: field for field the attributes set by
`AnomalyDetector.__init__` and mutated by `AnomalyDetector.detect`
(`alpha`, `z_threshold`, `ewma`, `variance`, `n`). -/
structure AnomalyDetector where
  alpha : ℝ
  z_threshold : ℝ
  ewma : Option ℝ
  variance : ℝ
  n : ℕ

/-- `AnomalyDetector.__init__` (without the unvalidated Python defaults):
`ewma = None`, `variance = 0`, `n = 0`. -/
def init (alpha z_threshold : ℝ) : AnomalyDetector :=
  ⟨alpha, z_threshold, none, 0, 0⟩

/-- The per-point record the spec's `process` returns: the flag computed
by `detect` together with the diagnostic values (`z_score`, updated
`ewma`, `std_dev`) that the source computes on the way. -/
structure Observation where
  value : ℝ
  is_anomaly : Prop
  z_score : ℝ
  ewma : ℝ
  std_dev : ℝ

/-- `AnomalyDetector.detect` from the source, returning the observation and
the post-state.  First branch: `ewma is None` sets `ewma = new_value`,
`variance = 0`, `n = 1` and returns `False`.  Otherwise, in source order:
`self.ewma = alpha * new_value + (1 - alpha) * self.ewma`, then
`self.variance = alpha * (new_value - self.ewma)**2 + (1 - alpha) * self.variance`
(the *updated* ewma), `std_dev = sqrt(self.variance)`,
`z_score = abs(new_value - self.ewma) / std_dev if std_dev != 0 else 0`,
`is_anomaly = z_score > self.z_threshold`, `self.n += 1`. -/
noncomputable def AnomalyDetector.detect (d : AnomalyDetector) (new_value : ℝ) :
    Observation × AnomalyDetector :=
  match d.ewma with
  | none =>
      (⟨new_value, False, 0, new_value, 0⟩,
       { d with ewma := some new_value, variance := 0, n := 1 })
  | some m =>
      let new_ewma := d.alpha * new_value + (1 - d.alpha) * m
      let new_variance :=
        d.alpha * (new_value - new_ewma) ^ 2 + (1 - d.alpha) * d.variance
      let std_dev := Real.sqrt new_variance
      let z_score := if std_dev ≠ 0 then |new_value - new_ewma| / std_dev else 0
      (⟨new_value, z_score > d.z_threshold, z_score, new_ewma, std_dev⟩,
       { d with ewma := some new_ewma, variance := new_variance, n := d.n + 1 })

/-- Folding `detect` over a list of inputs, keeping only the final state. -/
noncomputable def runDetector (d : AnomalyDetector) : List ℝ → AnomalyDetector
  | [] => d
  | v :: vs => runDetector (d.detect v).2 vs

/-- Folding `detect` over a list of inputs, collecting the observations. -/
noncomputable def observations (d : AnomalyDetector) : List ℝ → List Observation
  | [] => []
  | v :: vs => (d.detect v).1 :: observations (d.detect v).2 vs

/-- The detector states that actually arise: a fresh `init` state, or any
state produced from a reachable one by `detect`. -/
inductive Reachable : AnomalyDetector → Prop
  | base (alpha z_threshold : ℝ) : Reachable (init alpha z_threshold)
  | step (d : AnomalyDetector) (v : ℝ) : Reachable d → Reachable (d.detect v).2

/-- The construction-error taxonomy of the spec (section 7). -/
inductive ConfigError where
  | InvalidConfiguration
deriving DecidableEq

/-- Modelled from the spec: the validating constructor `new(alpha,
z_threshold)` of spec sections 4.1 and 6.  The source `__init__` performs
no validation; the spec requires construction to fail with
`InvalidConfiguration` unless `0 < alpha < 1` and `z_threshold > 0`. -/
noncomputable def new (alpha z_threshold : ℝ) : Except ConfigError AnomalyDetector :=
  if 0 < alpha ∧ alpha < 1 ∧ 0 < z_threshold then
    Except.ok (init alpha z_threshold)
  else
    Except.error ConfigError.InvalidConfiguration

/-- The pure state commit of `detect`: the assignments to `ewma`,
`variance` and `n` alone, written without reference to `z_score`,
`std_dev`, `z_threshold` or the anomaly decision. -/
def stateUpdate (d : AnomalyDetector) (v : ℝ) : AnomalyDetector :=
  match d.ewma with
  | none => { d with ewma := some v, variance := 0, n := 1 }
  | some m =>
      let new_ewma := d.alpha * v + (1 - d.alpha) * m
      { d with ewma := some new_ewma,
               variance := d.alpha * (v - new_ewma) ^ 2 + (1 - d.alpha) * d.variance,
               n := d.n + 1 }

/-! ### Branch lemmas for `detect` -/

theorem detect_none {d : AnomalyDetector} (h : d.ewma = none) (v : ℝ) :
    d.detect v = (⟨v, False, 0, v, 0⟩, ⟨d.alpha, d.z_threshold, some v, 0, 1⟩) := by
  unfold AnomalyDetector.detect
  rw [h]

theorem detect_some {d : AnomalyDetector} {m : ℝ} (h : d.ewma = some m) (v : ℝ) :
    d.detect v =
      (⟨v,
        (if Real.sqrt (d.alpha * (v - (d.alpha * v + (1 - d.alpha) * m)) ^ 2 +
              (1 - d.alpha) * d.variance) ≠ 0 then
          |v - (d.alpha * v + (1 - d.alpha) * m)| /
            Real.sqrt (d.alpha * (v - (d.alpha * v + (1 - d.alpha) * m)) ^ 2 +
              (1 - d.alpha) * d.variance)
        else 0) > d.z_threshold,
        if Real.sqrt (d.alpha * (v - (d.alpha * v + (1 - d.alpha) * m)) ^ 2 +
              (1 - d.alpha) * d.variance) ≠ 0 then
          |v - (d.alpha * v + (1 - d.alpha) * m)| /
            Real.sqrt (d.alpha * (v - (d.alpha * v + (1 - d.alpha) * m)) ^ 2 +
              (1 - d.alpha) * d.variance)
        else 0,
        d.alpha * v + (1 - d.alpha) * m,
        Real.sqrt (d.alpha * (v - (d.alpha * v + (1 - d.alpha) * m)) ^ 2 +
          (1 - d.alpha) * d.variance)⟩,
       ⟨d.alpha, d.z_threshold,
        some (d.alpha * v + (1 - d.alpha) * m),
        d.alpha * (v - (d.alpha * v + (1 - d.alpha) * m)) ^ 2 +
          (1 - d.alpha) * d.variance,
        d.n + 1⟩) := by
  unfold AnomalyDetector.detect
  rw [h]

/-- `detect` never writes `alpha` or `z_threshold`. -/
theorem detect_frame (d : AnomalyDetector) (v : ℝ) :
    (d.detect v).2.alpha = d.alpha ∧ (d.detect v).2.z_threshold = d.z_threshold := by
  rcases h : d.ewma with _ | m
  · rw [detect_none h]; exact ⟨rfl, rfl⟩
  · rw [detect_some h]; exact ⟨rfl, rfl⟩

/-- On reachable states the `None` sentinel and `count == 0` coincide. -/
theorem reachable_ewma_iff {d : AnomalyDetector} (h : Reachable d) :
    d.ewma = none ↔ d.n = 0 := by
  induction h with
  | base a t => exact ⟨fun _ => rfl, fun _ => rfl⟩
  | step d v _ _ =>
      rcases he : d.ewma with _ | m
      · rw [detect_none he]
        constructor <;> intro h' <;> simp at h'
      · rw [detect_some he]
        constructor <;> intro h' <;> simp at h'

/-- A run of the same value at the current mean with zero variance:
`detect` returns `std_dev = 0`, `z_score = 0`, `ewma = v`, flags exactly
when `0 > z_threshold`, and the post-state keeps `ewma = v`,
`variance = 0`, incrementing only `n`. -/
theorem detect_fix {d : AnomalyDetector} {v : ℝ} (h : d.ewma = some v)
    (hvar : d.variance = 0) :
    (d.detect v).1.std_dev = 0 ∧ (d.detect v).1.z_score = 0 ∧
    (d.detect v).1.ewma = v ∧
    ((d.detect v).1.is_anomaly ↔ 0 > d.z_threshold) ∧
    (d.detect v).2 = ⟨d.alpha, d.z_threshold, some v, 0, d.n + 1⟩ := by
  have hne : d.alpha * v + (1 - d.alpha) * v = v := by ring
  have hnv : d.alpha * (v - (d.alpha * v + (1 - d.alpha) * v)) ^ 2 +
      (1 - d.alpha) * d.variance = 0 := by
    rw [hvar, hne]; ring
  rw [detect_some h, hnv]
  refine ⟨Real.sqrt_zero, ?_, hne, ?_, ?_⟩
  · simp [Real.sqrt_zero]
  · simp [Real.sqrt_zero]
  · rw [hne]

/-- Changing only `z_threshold` changes neither `z_score` nor the
post-state (apart from the threshold field itself carried along). -/
theorem detect_set_threshold (d : AnomalyDetector) (t v : ℝ) :
    (({ d with z_threshold := t }).detect v).1.z_score = (d.detect v).1.z_score ∧
    (({ d with z_threshold := t }).detect v).2 =
      { (d.detect v).2 with z_threshold := t } := by
  rcases h : d.ewma with _ | m
  · rw [detect_none h]
    exact ⟨rfl, rfl⟩
  · rw [detect_some h]
    exact ⟨rfl, rfl⟩

/-- When the observation is flagged: exactly when this is not the first
point and the `z_score` exceeds the threshold. -/
theorem detect_anomaly_iff (d : AnomalyDetector) (v : ℝ) :
    (d.detect v).1.is_anomaly ↔
      d.ewma ≠ none ∧ d.z_threshold < (d.detect v).1.z_score := by
  rcases h : d.ewma with _ | m
  · rw [detect_none h]
    simp
  · rw [detect_some h]
    simp

/-- The reported `z_score` is never negative. -/
theorem detect_z_nonneg (d : AnomalyDetector) (v : ℝ) :
    0 ≤ (d.detect v).1.z_score := by
  rcases h : d.ewma with _ | m
  · rw [detect_none h]
  · rw [detect_some h]
    show 0 ≤ if _ ≠ 0 then _ else _
    split
    · exact div_nonneg (abs_nonneg _) (Real.sqrt_nonneg _)
    · exact le_refl 0

/-- The reported `std_dev` is never negative. -/
theorem detect_std_nonneg (d : AnomalyDetector) (v : ℝ) :
    0 ≤ (d.detect v).1.std_dev := by
  rcases h : d.ewma with _ | m
  · rw [detect_none h]
  · rw [detect_some h]
    exact Real.sqrt_nonneg _

/-- With `0 < alpha < 1`, a single `detect` step preserves
non-negativity of `variance`. -/
theorem detect_var_nonneg {d : AnomalyDetector} (ha0 : 0 < d.alpha)
    (ha1 : d.alpha < 1) (hv : 0 ≤ d.variance) (v : ℝ) :
    0 ≤ (d.detect v).2.variance := by
  rcases h : d.ewma with _ | m
  · rw [detect_none h]
  · rw [detect_some h]
    show 0 ≤ d.alpha * _ ^ 2 + (1 - d.alpha) * d.variance
    have h1 : 0 ≤ d.alpha * (v - (d.alpha * v + (1 - d.alpha) * m)) ^ 2 :=
      mul_nonneg ha0.le (sq_nonneg _)
    have h2 : 0 ≤ (1 - d.alpha) * d.variance :=
      mul_nonneg (by linarith) hv
    linarith

/-- A zero `std_dev` forces the reported `z_score` to be `0` (the guarded
division branch). -/
theorem detect_std_zero_z (d : AnomalyDetector) (v : ℝ)
    (h0 : (d.detect v).1.std_dev = 0) : (d.detect v).1.z_score = 0 := by
  rcases h : d.ewma with _ | m
  · rw [detect_none h]
  · simp only [detect_some h] at h0 ⊢
    rw [if_neg (not_not_intro h0)]

/-- `runDetector` never writes `alpha` or `z_threshold`. -/
theorem runDetector_frame :
    ∀ (vs : List ℝ) (d : AnomalyDetector),
      (runDetector d vs).alpha = d.alpha ∧
      (runDetector d vs).z_threshold = d.z_threshold := by
  intro vs
  induction vs with
  | nil => intro d; exact ⟨rfl, rfl⟩
  | cons v vs ih =>
      intro d
      have h := detect_frame d v
      have h2 := ih (d.detect v).2
      show (runDetector (d.detect v).2 vs).alpha = _ ∧
        (runDetector (d.detect v).2 vs).z_threshold = _
      rw [h2.1, h2.2, h.1, h.2]
      exact ⟨rfl, rfl⟩

/-- With `0 < alpha < 1`, non-negative variance is preserved along any run. -/
theorem runDetector_var_nonneg :
    ∀ (vs : List ℝ) (d : AnomalyDetector), 0 < d.alpha → d.alpha < 1 →
      0 ≤ d.variance → 0 ≤ (runDetector d vs).variance := by
  intro vs
  induction vs with
  | nil => intro d _ _ hv; exact hv
  | cons v vs ih =>
      intro d ha0 ha1 hv
      have hf := detect_frame d v
      have ha0' : 0 < (d.detect v).2.alpha := by rw [hf.1]; exact ha0
      have ha1' : (d.detect v).2.alpha < 1 := by rw [hf.1]; exact ha1
      exact ih (d.detect v).2 ha0' ha1' (detect_var_nonneg ha0 ha1 hv v)

/-- Every observation of any run reports a non-negative `std_dev`. -/
theorem observations_std_nonneg :
    ∀ (vs : List ℝ) (d : AnomalyDetector),
      ∀ o ∈ observations d vs, 0 ≤ o.std_dev := by
  intro vs
  induction vs with
  | nil => intro d o ho; simp [observations] at ho
  | cons v vs ih =>
      intro d o ho
      have hobs : observations d (v :: vs) =
          (d.detect v).1 :: observations (d.detect v).2 vs := rfl
      rw [hobs] at ho
      rcases List.mem_cons.1 ho with h | h
      · subst h; exact detect_std_nonneg d v
      · exact ih (d.detect v).2 o h

/-- Along a run of `k` copies of the current mean starting from zero
variance, every observation reports `std_dev = 0`, `z_score = 0`,
`ewma = v`, and is flagged exactly when `0 > z_threshold`. -/
theorem observations_replicate_fix :
    ∀ (k : ℕ) (d : AnomalyDetector) (v : ℝ), d.ewma = some v → d.variance = 0 →
      ∀ o ∈ observations d (List.replicate k v),
        o.std_dev = 0 ∧ o.z_score = 0 ∧ o.ewma = v ∧
        (o.is_anomaly ↔ 0 > d.z_threshold) := by
  intro k
  induction k with
  | zero => intro d v _ _ o ho; simp [observations] at ho
  | succ k ih =>
      intro d v he hvar o ho
      have hfix := @detect_fix d v he hvar
      rw [List.replicate_succ] at ho
      have hobs : observations d (v :: List.replicate k v) =
          (d.detect v).1 :: observations (d.detect v).2 (List.replicate k v) := rfl
      rw [hobs] at ho
      rcases List.mem_cons.1 ho with h | h
      · subst h
        exact ⟨hfix.1, hfix.2.1, hfix.2.2.1, hfix.2.2.2.1⟩
      · have hstate := hfix.2.2.2.2
        have h2 := ih (d.detect v).2 v (by rw [hstate]) (by rw [hstate]) o h
        rwa [hstate] at h2

/-- Lowering the threshold to `t` leaves every `z_score` unchanged and can
only add flags, pointwise along the whole run. -/
theorem observations_threshold_mono :
    ∀ (vs : List ℝ) (d : AnomalyDetector) (t : ℝ), t ≤ d.z_threshold →
      List.Forall₂
        (fun o2 o1 => (o2.is_anomaly → o1.is_anomaly) ∧ o2.z_score = o1.z_score)
        (observations d vs) (observations { d with z_threshold := t } vs) := by
  intro vs
  induction vs with
  | nil => intro d t _; exact List.Forall₂.nil
  | cons v vs ih =>
      intro d t ht
      have hset := detect_set_threshold d t v
      have hobs1 : observations d (v :: vs) =
          (d.detect v).1 :: observations (d.detect v).2 vs := rfl
      have hobs2 : observations { d with z_threshold := t } (v :: vs) =
          (({ d with z_threshold := t }).detect v).1 ::
            observations (({ d with z_threshold := t }).detect v).2 vs := rfl
      rw [hobs1, hobs2]
      refine List.Forall₂.cons ⟨?_, hset.1.symm⟩ ?_
      · intro ha
        have h2 := (detect_anomaly_iff d v).1 ha
        apply (detect_anomaly_iff { d with z_threshold := t } v).2
        refine ⟨h2.1, ?_⟩
        rw [hset.1]
        exact lt_of_le_of_lt ht h2.2
      · have h3 := ih (d.detect v).2 t (by rw [(detect_frame d v).2]; exact ht)
        rw [hset.2]
        exact h3

/-! ### Claim theorems -/

/-- C1: for every reachable detector state with `count >= 1` and every
input value, `detect` first computes
`new_mean = alpha * value + (1 - alpha) * mean_estimate` and then
`new_variance = alpha * (value - new_mean)^2 + (1 - alpha) * variance_estimate`
from that updated mean, commits both, and increments `count` by one. -/
theorem claim_C1_update_order (d : AnomalyDetector) (v : ℝ)
    (hr : Reachable d) (hn : 1 ≤ d.n) :
    ∃ m, d.ewma = some m ∧
      (d.detect v).2 =
        ⟨d.alpha, d.z_threshold,
         some (d.alpha * v + (1 - d.alpha) * m),
         d.alpha * (v - (d.alpha * v + (1 - d.alpha) * m)) ^ 2 +
           (1 - d.alpha) * d.variance,
         d.n + 1⟩ := by
  rcases he : d.ewma with _ | m
  · have h0 := (reachable_ewma_iff hr).1 he
    omega
  · exact ⟨m, rfl, by rw [detect_some he]⟩

/-- Witness for C1 at the reachable state obtained by feeding `10` to a
fresh detector, with next input `20`. -/
theorem claim_C1_witness :
    ∃ m, (⟨1/10, 2, some 10, 0, 1⟩ : AnomalyDetector).ewma = some m ∧
      ((⟨1/10, 2, some 10, 0, 1⟩ : AnomalyDetector).detect 20).2 =
        ⟨1/10, 2, some (1/10 * 20 + (1 - 1/10) * 10),
         1/10 * (20 - (1/10 * 20 + (1 - 1/10) * 10)) ^ 2 + (1 - 1/10) * 0,
         1 + 1⟩ := by
  obtain ⟨m, hm, hstate⟩ := claim_C1_update_order ⟨1/10, 2, some 10, 0, 1⟩ 20
    (Reachable.step (init (1/10) 2) 10 (Reachable.base (1/10) 2))
    (by decide)
  have h10 : m = 10 := by
    have h' : some (10:ℝ) = some m := hm
    injection h' with h
    exact h.symm
  subst h10
  exact ⟨10, hm, hstate⟩

/-- C2: on any reachable detector with `count == 0`, `detect` sets
`mean_estimate = value`, `variance_estimate = 0`, `count = 1` and returns
`is_anomaly = false`, `z_score = 0`, `ewma = value`, `std_dev = 0`. -/
theorem claim_C2_first_point (d : AnomalyDetector) (v : ℝ)
    (hr : Reachable d) (hn : d.n = 0) :
    d.detect v =
      (⟨v, False, 0, v, 0⟩, ⟨d.alpha, d.z_threshold, some v, 0, 1⟩) :=
  detect_none ((reachable_ewma_iff hr).2 hn) v

/-- Witness for C2 at a freshly constructed detector and value `42`. -/
theorem claim_C2_witness :
    (init (1/10) (5/2)).detect 42 =
      (⟨42, False, 0, 42, 0⟩, ⟨1/10, 5/2, some 42, 0, 1⟩) :=
  claim_C2_first_point (init (1/10) (5/2)) 42
    (Reachable.base (1/10) (5/2)) rfl

/-- C3: `new` rejects any `alpha` outside `(0, 1)` and any non-positive
`z_threshold` with `InvalidConfiguration`; in particular `new 0 2`,
`new 1 2`, `new (1/10) 0`, `new (1/10) (-1)` fail and
`new (1/10) (5/2)` succeeds. -/
theorem claim_C3_construction_validation :
    (∀ a t : ℝ, ¬(0 < a ∧ a < 1) ∨ t ≤ 0 →
      new a t = Except.error ConfigError.InvalidConfiguration) ∧
    new 0 2 = Except.error ConfigError.InvalidConfiguration ∧
    new 1 2 = Except.error ConfigError.InvalidConfiguration ∧
    new (1/10) 0 = Except.error ConfigError.InvalidConfiguration ∧
    new (1/10) (-1) = Except.error ConfigError.InvalidConfiguration ∧
    new (1/10) (5/2) = Except.ok (init (1/10) (5/2)) := by
  have hgen : ∀ a t : ℝ, ¬(0 < a ∧ a < 1) ∨ t ≤ 0 →
      new a t = Except.error ConfigError.InvalidConfiguration := by
    intro a t h
    unfold new
    rw [if_neg]
    rintro ⟨h1, h2, h3⟩
    rcases h with h | h
    · exact h ⟨h1, h2⟩
    · linarith
  have hok : (0:ℝ) < 1/10 ∧ (1:ℝ)/10 < 1 ∧ (0:ℝ) < 5/2 := by norm_num
  refine ⟨hgen, ?_, ?_, ?_, ?_, ?_⟩
  · exact hgen 0 2 (Or.inl (by norm_num))
  · exact hgen 1 2 (Or.inl (by norm_num))
  · exact hgen (1/10) 0 (Or.inr (by norm_num))
  · exact hgen (1/10) (-1) (Or.inr (by norm_num))
  · unfold new
    rw [if_pos hok]

/-- Witness for C3's general rejection clause at `alpha = 2`. -/
theorem claim_C3_witness :
    new 2 1 = Except.error ConfigError.InvalidConfiguration :=
  claim_C3_construction_validation.1 2 1 (Or.inl (by norm_num))

/-- C4 counterexample: the claim fails for a detector whose `z_threshold`
is negative (which construction in the source never rejects): on a run of
identical values the `z_score` is `0`, yet `0 > z_threshold` flags the
point. -/
theorem claim_C4_counterexample :
    ((⟨1/2, -2, some 7, 0, 1⟩ : AnomalyDetector).detect 7).1.is_anomaly :=
  (@detect_fix ⟨1/2, -2, some 7, 0, 1⟩ 7 rfl rfl).2.2.2.1.mpr
    (show (0:ℝ) > -2 by norm_num)

/-- C4 (amended): for every detector with a defined mean, zero variance
and non-negative `z_threshold`, a run of copies of the current mean keeps
`std_dev = 0` and `z_score = 0` on every call and never flags. -/
theorem claim_C4_zero_variance_run (d : AnomalyDetector) (v : ℝ) (k : ℕ)
    (he : d.ewma = some v) (hvar : d.variance = 0) (ht : 0 ≤ d.z_threshold) :
    ∀ o ∈ observations d (List.replicate k v),
      o.std_dev = 0 ∧ o.z_score = 0 ∧ ¬ o.is_anomaly := by
  intro o ho
  obtain ⟨h1, h2, _, h4⟩ := observations_replicate_fix k d v he hvar o ho
  exact ⟨h1, h2, fun ha => absurd (h4.mp ha) (not_lt.mpr ht)⟩

/-- Witness for C4 (amended): the first point of a constant run at mean
`10` with threshold `5/2` is not flagged. -/
theorem claim_C4_witness :
    ¬ ((⟨1/10, 5/2, some 10, 0, 1⟩ : AnomalyDetector).detect 10).1.is_anomaly := by
  have h := claim_C4_zero_variance_run ⟨1/10, 5/2, some 10, 0, 1⟩ 10 3
    rfl rfl (by norm_num)
  exact (h ((⟨1/10, 5/2, some 10, 0, 1⟩ : AnomalyDetector).detect 10).1
    (List.mem_cons_self _ _)).2.2

/-- C5: starting from a detector constructed with `0 < alpha < 1`,
`variance_estimate` is non-negative after every call, and every reported
`std_dev` is non-negative. -/
theorem claim_C5_variance_nonneg (a t : ℝ) (ha0 : 0 < a) (ha1 : a < 1)
    (vs : List ℝ) :
    0 ≤ (runDetector (init a t) vs).variance ∧
    ∀ o ∈ observations (init a t) vs, 0 ≤ o.std_dev :=
  ⟨runDetector_var_nonneg vs (init a t) ha0 ha1 le_rfl,
   observations_std_nonneg vs (init a t)⟩

/-- Witness for C5 on the run `[1, 2, 3]` with `alpha = 1/10`. -/
theorem claim_C5_witness :
    0 ≤ (runDetector (init (1/10) 2) [1, 2, 3]).variance :=
  (claim_C5_variance_nonneg (1/10) 2 (by norm_num) (by norm_num) [1, 2, 3]).1

/-- C6: for a fixed input sequence and fixed `alpha`, every point flagged
with the larger threshold `t2` is also flagged with the smaller `t1`: the
anomaly set is monotonically non-increasing in `z_threshold`. -/
theorem claim_C6_threshold_monotonic (a t1 t2 : ℝ) (vs : List ℝ)
    (h : t1 ≤ t2) :
    List.Forall₂ (fun o2 o1 => o2.is_anomaly → o1.is_anomaly)
      (observations (init a t2) vs) (observations (init a t1) vs) := by
  have h2 := observations_threshold_mono vs (init a t2) t1 h
  have h3 : ({ init a t2 with z_threshold := t1 } : AnomalyDetector) =
      init a t1 := rfl
  rw [h3] at h2
  exact List.Forall₂.imp (fun _ _ hr => hr.1) h2

/-- Witness for C6 with thresholds `2 ≤ 3` on the run `[10, 50]`. -/
theorem claim_C6_witness :
    List.Forall₂ (fun o2 o1 => o2.is_anomaly → o1.is_anomaly)
      (observations (init (1/10) 3) [10, 50])
      (observations (init (1/10) 2) [10, 50]) :=
  claim_C6_threshold_monotonic (1/10) 2 3 [10, 50] (by norm_num)

/-- Point 5 of the concrete scenario: value `50` against mean `10`, zero
variance, `alpha = 1/10`, threshold `5/2`: the `z_score` is
`36 / sqrt (648/5) > 5/2` and the point is flagged. -/
theorem detect_point5 :
    5/2 < ((⟨1/10, 5/2, some 10, 0, 4⟩ : AnomalyDetector).detect 50).1.z_score ∧
    ((⟨1/10, 5/2, some 10, 0, 4⟩ : AnomalyDetector).detect 50).1.is_anomaly := by
  have hV : (1:ℝ)/10 * (50 - (1/10 * 50 + (1 - 1/10) * 10)) ^ 2 +
      (1 - 1/10) * 0 = 648/5 := by norm_num
  have hsqrt_pos : 0 < Real.sqrt (648/5) := Real.sqrt_pos.mpr (by norm_num)
  have hsqrt_ne : Real.sqrt ((648:ℝ)/5) ≠ 0 := ne_of_gt hsqrt_pos
  have hsqrt_le : Real.sqrt ((648:ℝ)/5) ≤ 12 := by
    have h144 : (12:ℝ) = Real.sqrt 144 := by
      rw [show (144:ℝ) = 12 ^ 2 by norm_num,
        Real.sqrt_sq (by norm_num : (0:ℝ) ≤ 12)]
    rw [h144]
    exact Real.sqrt_le_sqrt (by norm_num)
  have habs : |(50:ℝ) - (1/10 * 50 + (1 - 1/10) * 10)| = 36 := by norm_num
  have hz : ((⟨1/10, 5/2, some 10, 0, 4⟩ : AnomalyDetector).detect 50).1.z_score
      = 36 / Real.sqrt (648/5) := by
    show (if Real.sqrt ((1:ℝ)/10 * (50 - (1/10 * 50 + (1 - 1/10) * 10)) ^ 2 +
            (1 - 1/10) * 0) ≠ 0 then
          |(50:ℝ) - (1/10 * 50 + (1 - 1/10) * 10)| /
            Real.sqrt ((1:ℝ)/10 * (50 - (1/10 * 50 + (1 - 1/10) * 10)) ^ 2 +
              (1 - 1/10) * 0)
        else 0) = 36 / Real.sqrt (648/5)
    rw [hV, if_pos hsqrt_ne, habs]
  have hzgt : (5:ℝ)/2 < 36 / Real.sqrt (648/5) := by
    rw [lt_div_iff₀ hsqrt_pos]
    linarith [hsqrt_le]
  constructor
  · rw [hz]; exact hzgt
  · apply (detect_anomaly_iff ⟨1/10, 5/2, some 10, 0, 4⟩ 50).2
    constructor
    · exact fun h => Option.noConfusion h
    · rw [hz]; exact hzgt

/-- C7: with `alpha = 1/10` and `z_threshold = 5/2`, the run
`[10, 10, 10, 10, 50]` yields four unflagged points with `std_dev = 0`
and `ewma = 10`, and a fifth point with `z_score > 5/2` that is
flagged. -/
theorem claim_C7_concrete_scenario :
    ∃ o1 o2 o3 o4 o5 : Observation,
      observations (init (1/10) (5/2)) [10, 10, 10, 10, 50] =
        [o1, o2, o3, o4, o5] ∧
      (¬ o1.is_anomaly ∧ o1.std_dev = 0 ∧ o1.ewma = 10) ∧
      (¬ o2.is_anomaly ∧ o2.std_dev = 0 ∧ o2.ewma = 10) ∧
      (¬ o3.is_anomaly ∧ o3.std_dev = 0 ∧ o3.ewma = 10) ∧
      (¬ o4.is_anomaly ∧ o4.std_dev = 0 ∧ o4.ewma = 10) ∧
      (5/2 < o5.z_score ∧ o5.is_anomaly) := by
  have e2 := @detect_fix (⟨1/10, 5/2, some 10, 0, 1⟩ : AnomalyDetector) 10 rfl rfl
  have e3 := @detect_fix (⟨1/10, 5/2, some 10, 0, 2⟩ : AnomalyDetector) 10 rfl rfl
  have e4 := @detect_fix (⟨1/10, 5/2, some 10, 0, 3⟩ : AnomalyDetector) 10 rfl rfl
  have hth : ¬ ((0:ℝ) > 5/2) := by norm_num
  refine ⟨((init (1/10) (5/2)).detect 10).1,
    ((⟨1/10, 5/2, some 10, 0, 1⟩ : AnomalyDetector).detect 10).1,
    ((⟨1/10, 5/2, some 10, 0, 2⟩ : AnomalyDetector).detect 10).1,
    ((⟨1/10, 5/2, some 10, 0, 3⟩ : AnomalyDetector).detect 10).1,
    ((⟨1/10, 5/2, some 10, 0, 4⟩ : AnomalyDetector).detect 50).1,
    ?_, ⟨not_false, rfl, rfl⟩,
    ⟨fun ha => hth (e2.2.2.2.1.mp ha), e2.1, e2.2.2.1⟩,
    ⟨fun ha => hth (e3.2.2.2.1.mp ha), e3.1, e3.2.2.1⟩,
    ⟨fun ha => hth (e4.2.2.2.1.mp ha), e4.1, e4.2.2.1⟩,
    detect_point5⟩
  show ((init (1/10) (5/2)).detect 10).1 ::
      observations (⟨1/10, 5/2, some 10, 0, 1⟩ : AnomalyDetector)
        [10, 10, 10, 50] = _
  refine congrArg _ ?_
  show ((⟨1/10, 5/2, some 10, 0, 1⟩ : AnomalyDetector).detect 10).1 ::
      observations ((⟨1/10, 5/2, some 10, 0, 1⟩ : AnomalyDetector).detect 10).2
        [10, 10, 50] = _
  rw [e2.2.2.2.2]
  refine congrArg _ ?_
  show ((⟨1/10, 5/2, some 10, 0, 2⟩ : AnomalyDetector).detect 10).1 ::
      observations ((⟨1/10, 5/2, some 10, 0, 2⟩ : AnomalyDetector).detect 10).2
        [10, 50] = _
  rw [e3.2.2.2.2]
  refine congrArg _ ?_
  show ((⟨1/10, 5/2, some 10, 0, 3⟩ : AnomalyDetector).detect 10).1 ::
      observations ((⟨1/10, 5/2, some 10, 0, 3⟩ : AnomalyDetector).detect 10).2
        [50] = _
  rw [e4.2.2.2.2]
  rfl

/-- C8: after any sequence of `detect` calls, `alpha` and `z_threshold`
still hold the values given at construction: no operation writes them. -/
theorem claim_C8_config_immutable (d : AnomalyDetector) (vs : List ℝ) :
    (runDetector d vs).alpha = d.alpha ∧
    (runDetector d vs).z_threshold = d.z_threshold :=
  runDetector_frame vs d

/-- C9: the post-state of `detect` is exactly `stateUpdate`, a function of
the prior state and the value alone that never reads the threshold or the
anomaly decision; changing the threshold changes nothing in the committed
statistics.  Flagged observations therefore enter the running statistics
exactly like normal points. -/
theorem claim_C9_state_function (d : AnomalyDetector) (v t : ℝ) :
    (d.detect v).2 = stateUpdate d v ∧
    (({ d with z_threshold := t }).detect v).2 =
      { stateUpdate d v with z_threshold := t } := by
  have hsu : (d.detect v).2 = stateUpdate d v := by
    rcases h : d.ewma with _ | m
    · rw [detect_none h]
      unfold stateUpdate
      rw [h]
    · rw [detect_some h]
      unfold stateUpdate
      rw [h]
  exact ⟨hsu, by rw [(detect_set_threshold d t v).2, hsu]⟩

/-- C10 counterexample: with a negative threshold (accepted by the
source constructor), a point is flagged while its `std_dev` is `0`, so
"flagged only when `std_dev > 0`" fails as stated. -/
theorem claim_C10_counterexample :
    ((⟨1/10, -1, some 5, 0, 3⟩ : AnomalyDetector).detect 5).1.is_anomaly ∧
    ¬ (0 < ((⟨1/10, -1, some 5, 0, 3⟩ : AnomalyDetector).detect 5).1.std_dev) := by
  have h := @detect_fix ⟨1/10, -1, some 5, 0, 3⟩ 5 rfl rfl
  constructor
  · exact h.2.2.2.1.mpr (show (0:ℝ) > -1 by norm_num)
  · rw [h.1]
    exact lt_irrefl 0

/-- C10 (amended): the `z_score` is always non-negative; when
`z_threshold >= 0` a point can be flagged only with `std_dev > 0`; every
point after the first is flagged exactly when its `z_score` exceeds the
threshold (so a negative threshold flags even `z_score = 0` points), and
the first point is never flagged. -/
theorem claim_C10_z_score_sign (d : AnomalyDetector) (v : ℝ) :
    0 ≤ (d.detect v).1.z_score ∧
    (0 ≤ d.z_threshold → (d.detect v).1.is_anomaly →
      0 < (d.detect v).1.std_dev) ∧
    (d.ewma ≠ none →
      ((d.detect v).1.is_anomaly ↔ d.z_threshold < (d.detect v).1.z_score)) ∧
    (d.ewma = none → ¬ (d.detect v).1.is_anomaly) := by
  refine ⟨detect_z_nonneg d v, ?_, ?_, ?_⟩
  · intro ht ha
    by_contra hstd
    have h0 : (d.detect v).1.std_dev = 0 :=
      le_antisymm (not_lt.mp hstd) (detect_std_nonneg d v)
    have hz := detect_std_zero_z d v h0
    have h2 := (detect_anomaly_iff d v).1 ha
    rw [hz] at h2
    linarith [h2.2]
  · intro hne
    rw [detect_anomaly_iff]
    simp [hne]
  · intro h
    rw [detect_none h]
    exact not_false

/-- Witness for C10: the first point of a fresh detector is not flagged. -/
theorem claim_C10_witness :
    ¬ ((init (1/10) (5/2)).detect 7).1.is_anomaly :=
  (claim_C10_z_score_sign (init (1/10) (5/2)) 7).2.2.2 rfl

end EwmaDetector
